import Mathlib

/-!
Shallow embedding of the TRILIB-Zvuk download worker (src/main.rs) and
verification of its specification claims.

The source is a single-file axum service.  The embedding models:
  - `get_url` (main.rs 17-78): the upstream GraphQL stream resolution,
  - `dl_file` (main.rs 80-104): fetching one URL and writing it to the cache,
  - `save_by_id` (main.rs 123-138): the per-request orchestration loop,
  - `download` (main.rs 141-171): the request supervisor (timeout wrapper and
    response construction).

External effects (the upstream HTTP exchange, the media fetch, the
mime-type-to-extension table of the `mime`/`mime_guess` crates, and write
success of `tokio::fs::write`) are supplied by an environment `Env` of
oracle functions.  The filesystem is a map from rendered path strings to
byte lists plus the set of created directories.  Rust panics (`unwrap`,
`expect`) are modelled explicitly as a `panicked` result constructor, and
each run also yields a trace of effect events.
-/

namespace ZvukDl

/-- Byte content of a fetched or written file. -/
abbrev Bytes := List Nat

/-- Result of a Rust computation that can return a value, return a declared
error (`Result::Err`), or panic (`unwrap`/`expect` on a failure). -/
inductive Res (α : Type) where
  | ok (a : α)
  | err (e : String)
  | panicked (msg : String)
deriving Repr, DecidableEq

/-- Minimal JSON value, mirroring `serde_json::Value` as far as `get_url`
inspects it. -/
inductive JVal where
  | null
  | bool (b : Bool)
  | num (n : Int)
  | str (s : String)
  | arr (xs : List JVal)
  | obj (fields : List (String × JVal))

/-- Indexing a `serde_json::Value` with a string key (`json["data"]`):
yields the field when the value is an object containing the key, and
`Null` otherwise. -/
def JVal.idx (j : JVal) (k : String) : JVal :=
  match j with
  | .obj fields =>
    match List.lookup k fields with
    | some v => v
    | none => .null
  | _ => .null

/-- Indexing a `serde_json::Value` with a usize (`json[0]`): yields the
element when the value is an array long enough, and `Null` otherwise. -/
def JVal.atIdx (j : JVal) (i : Nat) : JVal :=
  match j with
  | .arr xs => (xs.get? i).getD .null
  | _ => .null

/-- The `Value::as_str` accessor. -/
def JVal.asStr (j : JVal) : Option String :=
  match j with
  | .str s => some s
  | _ => none

/-- Outcome of the upstream GraphQL POST issued by `get_url` (main.rs 57-64):
either the transport call itself fails (`send().await?`), or a response
with a status code arrives whose body either fails to read/parse
(`res.text().await?` / `serde_json::from_str(&x)?`) or parses to a JSON
value. -/
inductive Upstream where
  | sendErr (msg : String)
  | resp (status : Nat) (body : Except String JVal)

/-- Outcome of the media fetch performed by `dl_file` (main.rs 81-87):
`reqwest::get` may fail (`expect "request failed"`), the body read may fail
(`expect "failed to read body"`), or bytes arrive together with the declared
content type header. -/
inductive FetchOutcome where
  | reqErr
  | readErr
  | ok (ct : Option String) (body : Bytes)

/-- Effect events recorded by a run, in order. -/
inductive Event where
  | resolveCall (id cookie : String)
  | fetchCall (url : String)
  | mkdir (path : String)
  | writeFile (path : String) (bytes : Bytes)
deriving Repr, DecidableEq

/-- Filesystem state: file contents by rendered path, plus the set of
directories created so far (as a duplicate-free list). -/
structure FS where
  files : String → Option Bytes
  dirs : List String

/-- The parsed request body `DownloadZVUK` (main.rs 173-178). -/
structure Req where
  id : String
  hash : String
  authCookie : String

/-- The configuration record: the cache root directory (the `CACHEDIR`
static of main.rs 106-114, an external configuration collaborator). -/
structure Config where
  cacheRoot : String

/-- Oracle environment for all external effects. `mimeExts` models the
composition `ct.parse::<mime::Mime>().ok().and_then(mime_guess::get_mime_extensions)`
of main.rs 89-91: `none` covers both an unparseable content type and a type
absent from the table. `writeOk` tells whether `tokio::fs::write` succeeds
at a path. -/
structure Env where
  upstream : String → String → Upstream
  net : String → FetchOutcome
  mimeExts : String → Option (List String)
  writeOk : String → Bool

/-- The response struct `IsOK` (main.rs 180-184). -/
structure IsOK where
  ok : Bool
  error : String
deriving Repr, DecidableEq

/-- What the request handler produces: either an HTTP response with a
status code and an `IsOK` body, or its own panic (the unwinding fault
escapes the handler and no structured response is produced). -/
inductive HandlerResult where
  | response (status : Nat) (body : IsOK)
  | panicked (msg : String)
deriving Repr, DecidableEq

/-- Update of the file map at one path (`tokio::fs::write` semantics:
create or overwrite). -/
def upd (f : String → Option Bytes) (k : String) (v : Bytes) : String → Option Bytes :=
  fun x => if x = k then some v else f x

/-- Idempotent directory creation (`tokio::fs::create_dir_all`). -/
def insertIfAbsent (d : String) (l : List String) : List String :=
  if d ∈ l then l else d :: l

/-- The `StatusCode::is_success` test of main.rs 66. -/
def isSuccess (s : Nat) : Bool := 200 ≤ s && s ≤ 299

/-- Panic message of `Option::unwrap` on `None` (main.rs 77). -/
def unwrapMsg : String := "called Option::unwrap on a None value"

/-- The nested stream object lookup of main.rs 73. -/
def streamOf (j : JVal) : JVal :=
  (((j.idx "data").idx "mediaContents").atIdx 0).idx "stream"

/-- The resolver `get_url` (main.rs 17-78) as a function of the upstream
exchange outcome.  Transport, status, read and parse failures are declared
errors returned through `?`; an absent "high" or "mid" field panics via
`unwrap` (main.rs 77), the "high" unwrap being evaluated first. -/
def getUrl (u : Upstream) : Res (List String) :=
  match u with
  | .sendErr m => .err m
  | .resp status body =>
    if isSuccess status then
      match body with
      | .error m => .err m
      | .ok j =>
        match ((streamOf j).idx "high").asStr, ((streamOf j).idx "mid").asStr with
        | some hs, some ms => .ok [hs, ms]
        | none, _ => .panicked unwrapMsg
        | some _, none => .panicked unwrapMsg
    else .err ("Spotify API error: " ++ toString status)

/-- Extension inference of `dl_file` (main.rs 89-93): content type through
the mime table, first extension of the table entry, empty string when
anything is missing (`unwrap_or_default`). -/
def inferredExt (env : Env) (ct : Option String) : String :=
  (((ct.bind env.mimeExts).bind List.head?).getD "")

/-- Final path construction of `dl_file` (main.rs 95-99): append a dot and
the extension unless the extension is empty. -/
def withExt (dest ext : String) : String :=
  if ext.isEmpty then dest else dest ++ "." ++ ext

/-- The fetch-and-persist step `dl_file` (main.rs 80-104).  Fetch and body
read failures panic via `expect`; the bytes are written (overwriting) at
`to` suffixed with the inferred extension; a write failure panics via
`expect`. -/
def dlFile (env : Env) (url dest : String) (fs : FS) : Res Unit × FS × List Event :=
  match env.net url with
  | .reqErr => (.panicked "request failed", fs, [.fetchCall url])
  | .readErr => (.panicked "failed to read body", fs, [.fetchCall url])
  | .ok ct body =>
    let finalPath := withExt dest (inferredExt env ct)
    if env.writeOk finalPath then
      (.ok (), { fs with files := upd fs.files finalPath body },
        [.fetchCall url, .writeFile finalPath body])
    else
      (.panicked "failed to write file", fs, [.fetchCall url])

/-- The per-request cache directory `<cacheRoot>/<hash>/zvuk`
(main.rs 127-129). -/
def dirPath (cfg : Config) (hash : String) : String :=
  cfg.cacheRoot ++ "/" ++ hash ++ "/zvuk"

/-- One iteration of the tier loop of `save_by_id` (main.rs 126-136):
rebuild the directory path, create it, push the tier name, and only then
look the tier's URL up; a tier with no URL is skipped silently. -/
def tierStep (env : Env) (cfg : Config) (hash : String) (urls : List String)
    (i : Nat) (format : String) (fs : FS) : Res Unit × FS × List Event :=
  let d := dirPath cfg hash
  let fs1 : FS := { fs with dirs := insertIfAbsent d fs.dirs }
  let filepath := d ++ "/" ++ format
  match urls.get? i with
  | some url =>
    let r := dlFile env url filepath fs1
    (r.1, r.2.1, .mkdir d :: r.2.2)
  | none => (.ok (), fs1, [.mkdir d])

/-- The fixed tier iteration order of main.rs 126. -/
def tierFormats : List String := ["best", "mid"]

/-- The enumerated tier loop of `save_by_id`.  A panic inside an iteration
aborts the loop with the state reached so far. -/
def runTiers (env : Env) (cfg : Config) (hash : String) (urls : List String) :
    List String → Nat → FS → Res Unit × FS × List Event
  | [], _, fs => (.ok (), fs, [])
  | f :: rest, i, fs =>
    match tierStep env cfg hash urls i f fs with
    | (.panicked m, fs1, tr1) => (.panicked m, fs1, tr1)
    | (_, fs1, tr1) =>
      let r := runTiers env cfg hash urls rest (i + 1) fs1
      (r.1, r.2.1, tr1 ++ r.2.2)

/-- The orchestrator `save_by_id` (main.rs 123-138).  A resolver error is
turned into a panic by `expect "couldn't get stream"` (main.rs 124); on
resolver success the two tiers are iterated and `Ok(true)` is returned. -/
def saveById (env : Env) (cfg : Config) (req : Req) (fs : FS) :
    Res Bool × FS × List Event :=
  let rcEv : Event := .resolveCall req.id req.authCookie
  match getUrl (env.upstream req.id req.authCookie) with
  | .err e => (.panicked ("couldn't get stream: " ++ e), fs, [rcEv])
  | .panicked m => (.panicked m, fs, [rcEv])
  | .ok urls =>
    let r := runTiers env cfg req.hash urls tierFormats 0 fs
    match r.1 with
    | .ok _ => (.ok true, r.2.1, rcEv :: r.2.2)
    | .err e => (.err e, r.2.1, rcEv :: r.2.2)
    | .panicked m => (.panicked m, r.2.1, rcEv :: r.2.2)

/-- The deadline of the supervisor: `Duration::from_secs(300)`
(main.rs 144), in seconds. -/
def timeoutSecs : Nat := 300

/-- Display text of `tokio::time::error::Elapsed`, which main.rs 168
stringifies into the error field on timeout. -/
def elapsedMsg : String := "deadline has elapsed"

/-- Result of the timed run as seen at main.rs 159: the deadline elapsed,
or the guarded run completed with a value (a completed run that panicked
never yields a value here - the panic unwinds, which `respond` models
explicitly). -/
inductive TimedRun where
  | elapsed
  | completed (r : Res Unit)

/-- The normalization of the run result at main.rs 154-157.  Its value is
bound to `_res` and never used by the source. -/
def underscoreRes (run : Except String Unit) : Except String Unit :=
  match run with
  | .ok _ => .ok ()
  | .error e => .error ("panic: " ++ e)

/-- The supervisor's outcome construction (main.rs 144-170).  The source
awaits the run inside `AssertUnwindSafe` but never calls `catch_unwind`,
so a panicking run unwinds out of the handler and no response match runs;
for a completed run the discarded `_res` makes the declared-error case
indistinguishable from success, and the final match only distinguishes
the timeout: `Ok(_)` yields 200 / ok:true and `Err(Elapsed)` yields
500 / ok:false with the elapsed message. -/
def respond : TimedRun → HandlerResult
  | .completed (.panicked m) => .panicked m
  | .completed (.ok _) => .response 200 ⟨true, ""⟩
  | .completed (.err _) => .response 200 ⟨true, ""⟩
  | .elapsed => .response 500 ⟨false, elapsedMsg⟩

/-- The guarded run of main.rs 145-152: `save_by_id` with its error mapped
through `anyhow` (main.rs 148), a panic propagating unchanged. -/
def downloadRun (env : Env) (cfg : Config) (payload : Req) (fs : FS) :
    Res Unit × FS × List Event :=
  match saveById env cfg payload fs with
  | (.ok _, fs1, tr) => (.ok (), fs1, tr)
  | (.err e, fs1, tr) => (.err ("save_best_medium_low failed: " ++ e), fs1, tr)
  | (.panicked m, fs1, tr) => (.panicked m, fs1, tr)

/-- The request handler `download` (main.rs 141-171), with the deadline
expiry supplied as an oracle boolean. -/
def download (env : Env) (cfg : Config) (payload : Req) (fs : FS)
    (elapsed : Bool) : HandlerResult :=
  respond (if elapsed then .elapsed else .completed (downloadRun env cfg payload fs).1)

/-- Recognizer for write events. -/
def isWriteEv : Event → Bool
  | .writeFile _ _ => true
  | _ => false

/-- Recognizer for resolver-call events. -/
def isResolveEv : Event → Bool
  | .resolveCall _ _ => true
  | _ => false

/-! Concrete sample inputs used by counterexamples and witnesses. -/

/-- Sample environment whose upstream call returns HTTP 401. -/
def env401 : Env where
  upstream := fun _ _ => .resp 401 (.ok .null)
  net := fun _ => .ok none []
  mimeExts := fun _ => none
  writeOk := fun _ => true

/-- Sample configuration. -/
def cfg0 : Config := ⟨"CACHE"⟩

/-- Sample request. -/
def req0 : Req := ⟨"123", "abc", "tok"⟩

/-- Empty starting filesystem. -/
def fs0 : FS := ⟨fun _ => none, []⟩

/-- Upstream JSON document whose stream object lacks the "high" field. -/
def respMissingHigh : JVal :=
  .obj [("data", .obj [("mediaContents",
    .arr [.obj [("stream", .obj [("mid", .str "http://h/b.mp3")])]])])]

/-- Upstream JSON document with both stream fields present. -/
def respFull : JVal :=
  .obj [("data", .obj [("mediaContents",
    .arr [.obj [("stream", .obj [("high", .str "http://h/a.flac"),
                                 ("mid", .str "http://h/b.mp3")])]])])]

/-- Sample environment where everything succeeds: both stream fields
resolve, both fetches return bytes with mapped content types, writes
succeed. -/
def envOk : Env where
  upstream := fun _ _ => .resp 200 (.ok respFull)
  net := fun url =>
    if url = "http://h/a.flac" then .ok (some "audio/flac") [1, 2, 3]
    else .ok (some "audio/mpeg") [4, 5]
  mimeExts := fun ct =>
    if ct = "audio/flac" then some ["flac"]
    else if ct = "audio/mpeg" then some ["mp3"]
    else none
  writeOk := fun _ => true

/-! Shared structural lemmas. -/

/-- A successful resolution always comes from a success-status response
whose stream object has both fields, and yields exactly their pair. -/
theorem getUrl_ok_shape (u : Upstream) (urls : List String)
    (h : getUrl u = .ok urls) :
    ∃ status j hs ms, u = .resp status (.ok j) ∧ isSuccess status = true ∧
      ((streamOf j).idx "high").asStr = some hs ∧
      ((streamOf j).idx "mid").asStr = some ms ∧
      urls = [hs, ms] := by
  cases u with
  | sendErr m => exact absurd h (by simp [getUrl])
  | resp status body =>
    by_cases hst : isSuccess status
    · cases body with
      | error m => exact absurd h (by simp [getUrl, hst])
      | ok j =>
        rcases hh : ((streamOf j).idx "high").asStr with _ | hsv
        · exact absurd h (by simp [getUrl, hst, hh])
        · rcases hm : ((streamOf j).idx "mid").asStr with _ | msv
          · exact absurd h (by simp [getUrl, hst, hh, hm])
          · have hu : urls = [hsv, msv] := by
              have h2 : Res.ok (α := List String) [hsv, msv] = .ok urls := by
                rw [← h]; simp [getUrl, hst, hh, hm]
              exact (Res.ok.inj h2).symm
            exact ⟨status, j, hsv, msv, rfl, by simpa using hst, hh, hm, hu⟩
    · exact absurd h (by simp [getUrl, hst])

theorem dlFile_no_resolve (env : Env) (url dest : String) (fs : FS) :
    ((dlFile env url dest fs).2.2).filter isResolveEv = [] := by
  unfold dlFile
  cases env.net url with
  | reqErr => simp [isResolveEv]
  | readErr => simp [isResolveEv]
  | ok ct body =>
    by_cases hw : env.writeOk (withExt dest (inferredExt env ct)) <;>
      simp [hw, isResolveEv]

theorem tierStep_no_resolve (env : Env) (cfg : Config) (hash : String)
    (urls : List String) (i : Nat) (f : String) (fs : FS) :
    ((tierStep env cfg hash urls i f fs).2.2).filter isResolveEv = [] := by
  unfold tierStep
  cases urls.get? i with
  | none => simp [isResolveEv]
  | some url => simp [isResolveEv, dlFile_no_resolve]

theorem runTiers_no_resolve (env : Env) (cfg : Config) (hash : String)
    (urls : List String) (fmts : List String) : ∀ (i : Nat) (fs : FS),
    ((runTiers env cfg hash urls fmts i fs).2.2).filter isResolveEv = [] := by
  induction fmts with
  | nil => intro i fs; simp [runTiers]
  | cons f rest ih =>
    intro i fs
    unfold runTiers
    rcases hts : tierStep env cfg hash urls i f fs with ⟨r, fs1, tr1⟩
    have h1 : tr1.filter isResolveEv = [] := by
      have h0 := tierStep_no_resolve env cfg hash urls i f fs
      rw [hts] at h0; exact h0
    cases r with
    | panicked m => simpa using h1
    | ok u => simp [List.filter_append, h1, ih]
    | err e => simp [List.filter_append, h1, ih]

theorem dlFile_dirs (env : Env) (url dest : String) (fs : FS) :
    (dlFile env url dest fs).2.1.dirs = fs.dirs := by
  unfold dlFile
  cases env.net url with
  | reqErr => rfl
  | readErr => rfl
  | ok ct body =>
    by_cases hw : env.writeOk (withExt dest (inferredExt env ct)) <;> simp [hw]

theorem mem_insertIfAbsent (d : String) (l : List String) :
    d ∈ insertIfAbsent d l := by
  unfold insertIfAbsent; split
  · assumption
  · exact List.mem_cons_self d l

theorem insertIfAbsent_mono (x d : String) (l : List String) (h : x ∈ l) :
    x ∈ insertIfAbsent d l := by
  unfold insertIfAbsent; split
  · exact h
  · exact List.mem_cons_of_mem d h

theorem tierStep_dirs_mem (env : Env) (cfg : Config) (hash : String)
    (urls : List String) (i : Nat) (f : String) (fs : FS) :
    dirPath cfg hash ∈ (tierStep env cfg hash urls i f fs).2.1.dirs := by
  unfold tierStep
  cases urls.get? i with
  | none => exact mem_insertIfAbsent _ _
  | some url => simpa [dlFile_dirs] using mem_insertIfAbsent (dirPath cfg hash) fs.dirs

theorem tierStep_dirs_preserve (env : Env) (cfg : Config) (hash : String)
    (urls : List String) (i : Nat) (f : String) (fs : FS) (x : String)
    (h : x ∈ fs.dirs) :
    x ∈ (tierStep env cfg hash urls i f fs).2.1.dirs := by
  unfold tierStep
  cases urls.get? i with
  | none => exact insertIfAbsent_mono x _ _ h
  | some url => simpa [dlFile_dirs] using insertIfAbsent_mono x (dirPath cfg hash) fs.dirs h

theorem runTiers_dirs_preserve (env : Env) (cfg : Config) (hash : String)
    (urls : List String) (fmts : List String) : ∀ (i : Nat) (fs : FS) (x : String),
    x ∈ fs.dirs → x ∈ (runTiers env cfg hash urls fmts i fs).2.1.dirs := by
  induction fmts with
  | nil => intro i fs x h; simpa [runTiers] using h
  | cons f rest ih =>
    intro i fs x h
    unfold runTiers
    rcases hts : tierStep env cfg hash urls i f fs with ⟨r, fs1, tr1⟩
    have h1 : x ∈ fs1.dirs := by
      have h0 := tierStep_dirs_preserve env cfg hash urls i f fs x h
      rw [hts] at h0; exact h0
    cases r with
    | panicked m => simpa using h1
    | ok u => simpa using ih (i + 1) fs1 x h1
    | err e => simpa using ih (i + 1) fs1 x h1

theorem runTiers_dirs_mem (env : Env) (cfg : Config) (hash : String)
    (urls : List String) (f : String) (rest : List String) (i : Nat) (fs : FS) :
    dirPath cfg hash ∈ (runTiers env cfg hash urls (f :: rest) i fs).2.1.dirs := by
  unfold runTiers
  rcases hts : tierStep env cfg hash urls i f fs with ⟨r, fs1, tr1⟩
  have h1 : dirPath cfg hash ∈ fs1.dirs := by
    have h0 := tierStep_dirs_mem env cfg hash urls i f fs
    rw [hts] at h0; exact h0
  cases r with
  | panicked m => simpa using h1
  | ok u => simpa using runTiers_dirs_preserve env cfg hash urls rest (i + 1) fs1 _ h1
  | err e => simpa using runTiers_dirs_preserve env cfg hash urls rest (i + 1) fs1 _ h1

theorem tierStep_trace_head (env : Env) (cfg : Config) (hash : String)
    (urls : List String) (i : Nat) (f : String) (fs : FS) :
    ∃ tr, (tierStep env cfg hash urls i f fs).2.2 =
      .mkdir (dirPath cfg hash) :: tr := by
  unfold tierStep
  cases urls.get? i with
  | none => exact ⟨[], rfl⟩
  | some url => exact ⟨_, rfl⟩

theorem runTiers_trace_head (env : Env) (cfg : Config) (hash : String)
    (urls : List String) (f : String) (rest : List String) (i : Nat) (fs : FS) :
    ∃ tr, (runTiers env cfg hash urls (f :: rest) i fs).2.2 =
      .mkdir (dirPath cfg hash) :: tr := by
  unfold runTiers
  rcases hts : tierStep env cfg hash urls i f fs with ⟨r, fs1, tr1⟩
  obtain ⟨tr, htr⟩ := tierStep_trace_head env cfg hash urls i f fs
  rw [hts] at htr
  cases r with
  | panicked m => exact ⟨tr, by simpa using htr⟩
  | ok u =>
    replace htr : tr1 = Event.mkdir (dirPath cfg hash) :: tr := htr
    exact ⟨tr ++ (runTiers env cfg hash urls rest (i + 1) fs1).2.2, by simp [htr]⟩
  | err e =>
    replace htr : tr1 = Event.mkdir (dirPath cfg hash) :: tr := htr
    exact ⟨tr ++ (runTiers env cfg hash urls rest (i + 1) fs1).2.2, by simp [htr]⟩

theorem strData_append (a b : String) : (a ++ b).data = a.data ++ b.data := by
  cases a; cases b; rfl

theorem upd_same (f : String → Option Bytes) (k : String) (v : Bytes) :
    upd f k v k = some v := by simp [upd]

theorem upd_other (f : String → Option Bytes) (k : String) (v : Bytes)
    (x : String) (h : x ≠ k) : upd f k v x = f x := by simp [upd, h]

theorem upd_collapse (f : String → Option Bytes) (k1 k2 : String)
    (v1 v2 : Bytes) :
    upd (upd (upd (upd f k1 v1) k2 v2) k1 v1) k2 v2 =
      upd (upd f k1 v1) k2 v2 := by
  funext x
  by_cases h2 : x = k2 <;> by_cases h1 : x = k1 <;> simp [upd, h1, h2]

theorem insertIfAbsent_idem (d : String) (l : List String) :
    insertIfAbsent d (insertIfAbsent d l) = insertIfAbsent d l := by
  by_cases h : d ∈ l <;> simp [insertIfAbsent, h]

theorem isEmpty_false_of_ne (e : String) (h : e ≠ "") : e.isEmpty = false := by
  cases he : e.isEmpty
  · rfl
  · exact absurd ((String.isEmpty_iff e).mp he) h

theorem withExt_empty (dest : String) : withExt dest "" = dest := by rfl

theorem withExt_ne_empty (dest e : String) (h : e ≠ "") :
    withExt dest e = dest ++ "." ++ e := by
  simp [withExt, isEmpty_false_of_ne e h]

/-- The best-tier path and the mid-tier path are distinct, whatever the
cache directory and the inferred extensions are. -/
theorem withExt_best_ne_mid (d e1 e2 : String) :
    withExt (d ++ "/" ++ "best") e1 ≠ withExt (d ++ "/" ++ "mid") e2 := by
  have h1 : ∃ r1, (withExt (d ++ "/" ++ "best") e1).data =
      d.data ++ '/' :: 'b' :: 'e' :: 's' :: 't' :: r1 := by
    unfold withExt
    split
    · exact ⟨[], by simp [strData_append]⟩
    · exact ⟨'.' :: e1.data, by simp [strData_append]⟩
  have h2 : ∃ r2, (withExt (d ++ "/" ++ "mid") e2).data =
      d.data ++ '/' :: 'm' :: 'i' :: 'd' :: r2 := by
    unfold withExt
    split
    · exact ⟨[], by simp [strData_append]⟩
    · exact ⟨'.' :: e2.data, by simp [strData_append]⟩
  obtain ⟨r1, h1⟩ := h1
  obtain ⟨r2, h2⟩ := h2
  intro h
  have hd := congrArg String.data h
  rw [h1, h2] at hd
  have hc := List.append_cancel_left hd
  simp at hc

/-- Complete evaluation of `save_by_id` when resolution yields the pair
of URLs, both fetches succeed and both writes succeed. -/
theorem saveById_run_eq (env : Env) (cfg : Config) (req : Req) (fs : FS)
    (u1 u2 : String) (ct1 ct2 : Option String) (b1 b2 : Bytes)
    (hgu : getUrl (env.upstream req.id req.authCookie) = .ok [u1, u2])
    (hn1 : env.net u1 = .ok ct1 b1)
    (hn2 : env.net u2 = .ok ct2 b2)
    (hw1 : env.writeOk (withExt (dirPath cfg req.hash ++ "/" ++ "best")
      (inferredExt env ct1)) = true)
    (hw2 : env.writeOk (withExt (dirPath cfg req.hash ++ "/" ++ "mid")
      (inferredExt env ct2)) = true) :
    saveById env cfg req fs =
      (.ok true,
       ⟨upd (upd fs.files
              (withExt (dirPath cfg req.hash ++ "/" ++ "best") (inferredExt env ct1)) b1)
            (withExt (dirPath cfg req.hash ++ "/" ++ "mid") (inferredExt env ct2)) b2,
        insertIfAbsent (dirPath cfg req.hash)
          (insertIfAbsent (dirPath cfg req.hash) fs.dirs)⟩,
       [.resolveCall req.id req.authCookie,
        .mkdir (dirPath cfg req.hash),
        .fetchCall u1,
        .writeFile (withExt (dirPath cfg req.hash ++ "/" ++ "best")
          (inferredExt env ct1)) b1,
        .mkdir (dirPath cfg req.hash),
        .fetchCall u2,
        .writeFile (withExt (dirPath cfg req.hash ++ "/" ++ "mid")
          (inferredExt env ct2)) b2]) := by
  simp [saveById, hgu, tierFormats, runTiers, tierStep, dlFile, hn1, hn2,
    hw1, hw2, List.get?_cons_zero, List.get?_cons_succ]

/-! Claim theorems. -/

/-- C1, counterexample: a run that completes while propagating a declared
error is answered with HTTP 200 and ok:true (the run's Result is discarded
into `_res` at main.rs 154-157), not with the HTTP 500 / ok:false outcome
the claim requires for a propagated error. -/
theorem c1_error_run_yields_ok_counterexample :
    respond (.completed (.err "boom")) = .response 200 ⟨true, ""⟩ ∧
    respond (.completed (.err "boom")) ≠ .response 500 ⟨false, "boom"⟩ := by
  exact ⟨rfl, by decide⟩

/-- C1, amended: the supervisor answers HTTP 200 with ok:true and empty
error for every run that completes without panicking - whether its value
is success or a propagated declared error, the latter being discarded -
and answers HTTP 500 with ok:false exactly when the deadline elapses. -/
theorem c1_supervisor_mapping :
    (∀ u : Unit, respond (.completed (.ok u)) = .response 200 ⟨true, ""⟩) ∧
    (∀ e : String, respond (.completed (.err e)) = .response 200 ⟨true, ""⟩) ∧
    respond .elapsed = .response 500 ⟨false, elapsedMsg⟩ :=
  ⟨fun _ => rfl, fun _ => rfl, rfl⟩

/-- C2, code bug: the source awaits the run inside `AssertUnwindSafe` but
never calls `catch_unwind`, so a panic raised inside the run (here: the
`expect` on a failed resolution, upstream answering 401) unwinds out of the
`download` handler and no structured response is produced, contradicting
the claimed fault boundary. -/
theorem c2_panic_escapes_handler :
    download env401 cfg0 req0 fs0 false =
      .panicked ("couldn't get stream: Spotify API error: 401") := by
  rfl

/-- C3, code bug: on an upstream 200 response whose stream object lacks the
"high" field, `get_url` panics through `Option::unwrap` (main.rs 77)
instead of returning a recoverable MissingStreamField-style error. -/
theorem c3_missing_field_panics :
    getUrl (.resp 200 (.ok respMissingHigh)) = .panicked unwrapMsg := by
  rfl

/-- C6, counterexample: when the upstream call returns the non-success
status 401, `save_by_id` panics through `expect "couldn't get stream"`
(main.rs 124) - the resolver error is turned into a process-level panic,
not propagated as a declared error (a `Res.panicked` result is a different
constructor from the `Res.err` propagation the claim describes, and by C2
the panic escapes the supervisor without an ok:false response). -/
theorem c6_resolver_error_panics_counterexample :
    (saveById env401 cfg0 req0 fs0).1 =
      .panicked ("couldn't get stream: Spotify API error: 401") := by
  rfl

/-- C6, amended: the orchestrator records exactly one resolver call per
run, and when resolution fails the run aborts immediately by panicking
with the resolver's error message: no tier fetch happens, no cache file is
written, and the filesystem is returned unchanged. -/
theorem c6_resolve_once_and_failfast :
    (∀ (env : Env) (cfg : Config) (req : Req) (fs : FS),
      ((saveById env cfg req fs).2.2).filter isResolveEv =
        [.resolveCall req.id req.authCookie]) ∧
    (∀ (env : Env) (cfg : Config) (req : Req) (fs : FS) (e : String),
      getUrl (env.upstream req.id req.authCookie) = .err e →
      saveById env cfg req fs =
        (.panicked ("couldn't get stream: " ++ e), fs,
          [.resolveCall req.id req.authCookie])) := by
  constructor
  · intro env cfg req fs
    rcases hg : getUrl (env.upstream req.id req.authCookie) with urls | e | m
    · simp only [saveById, hg]
      rcases hr : runTiers env cfg req.hash urls tierFormats 0 fs with ⟨r1, fs2, tr⟩
      have hnr : tr.filter isResolveEv = [] := by
        have h0 := runTiers_no_resolve env cfg req.hash urls tierFormats 0 fs
        rw [hr] at h0; exact h0
      cases r1 <;> simp [isResolveEv, hnr]
    · simp [saveById, hg, isResolveEv]
    · simp [saveById, hg, isResolveEv]
  · intro env cfg req fs e hres
    simp [saveById, hres]

/-- C9: whenever the resolver returns successfully, the upstream response
was a success-status JSON document whose stream object carries both the
"high" and "mid" fields, and the returned URL list is exactly the pair
[high, mid]; in particular it has length two and every tier lookup
`urls.get? i` (i < 2) of the orchestrator finds an entry, so the
skip-absent-tier branch is unreachable after a successful resolve. -/
theorem c9_resolver_success_pair (u : Upstream) (urls : List String)
    (h : getUrl u = .ok urls) :
    urls.length = 2 ∧
    (∃ status j hs ms, u = .resp status (.ok j) ∧
      ((streamOf j).idx "high").asStr = some hs ∧
      ((streamOf j).idx "mid").asStr = some ms ∧ urls = [hs, ms]) ∧
    (∀ i, i < 2 → (urls.get? i).isSome = true) := by
  obtain ⟨status, j, hs, ms, hu, hst, hh, hm, hurls⟩ := getUrl_ok_shape u urls h
  subst hurls; subst hu
  refine ⟨rfl, ⟨status, j, hs, ms, rfl, hh, hm, rfl⟩, ?_⟩
  intro i hi
  match i, hi with
  | 0, _ => rfl
  | 1, _ => rfl

/-- C9 witness: the theorem applied to the concrete full upstream
response. -/
theorem c9_witness :
    (["http://h/a.flac", "http://h/b.mp3"] : List String).length = 2 ∧
    (∃ status j hs ms,
      Upstream.resp 200 (.ok respFull) = .resp status (.ok j) ∧
      ((streamOf j).idx "high").asStr = some hs ∧
      ((streamOf j).idx "mid").asStr = some ms ∧
      (["http://h/a.flac", "http://h/b.mp3"] : List String) = [hs, ms]) ∧
    (∀ i, i < 2 →
      ((["http://h/a.flac", "http://h/b.mp3"] : List String).get? i).isSome = true) :=
  c9_resolver_success_pair (.resp 200 (.ok respFull))
    ["http://h/a.flac", "http://h/b.mp3"] rfl

/-- C10: when resolution succeeds, the cache directory
`<cacheRoot>/<hash>/zvuk` is a member of the final filesystem's created
directories (even if a later fetch or write panics), the run's trace shows
the directory creation happening right after the resolver call and before
any tier URL is examined or fetched, and each tier iteration creates the
directory even when that tier's URL is absent (the skipped case). -/
theorem c10_cache_dir_created (env : Env) (cfg : Config) (req : Req)
    (fs : FS) (urls : List String)
    (h : getUrl (env.upstream req.id req.authCookie) = .ok urls) :
    dirPath cfg req.hash ∈ (saveById env cfg req fs).2.1.dirs ∧
    (∃ tr, (saveById env cfg req fs).2.2 =
      .resolveCall req.id req.authCookie :: .mkdir (dirPath cfg req.hash) :: tr) ∧
    (∀ (urls2 : List String) (i : Nat) (f : String) (fs2 : FS),
      dirPath cfg req.hash ∈ (tierStep env cfg req.hash urls2 i f fs2).2.1.dirs) := by
  refine ⟨?_, ?_, fun urls2 i f fs2 => tierStep_dirs_mem env cfg req.hash urls2 i f fs2⟩
  · simp only [saveById, h, tierFormats]
    rcases hr : runTiers env cfg req.hash urls ["best", "mid"] 0 fs with ⟨r1, fs2, tr⟩
    have hd := runTiers_dirs_mem env cfg req.hash urls "best" ["mid"] 0 fs
    rw [hr] at hd
    cases r1 <;> simpa using hd
  · simp only [saveById, h, tierFormats]
    rcases hr : runTiers env cfg req.hash urls ["best", "mid"] 0 fs with ⟨r1, fs2, tr⟩
    obtain ⟨tr2, htr⟩ := runTiers_trace_head env cfg req.hash urls "best" ["mid"] 0 fs
    rw [hr] at htr
    replace htr : tr = .mkdir (dirPath cfg req.hash) :: tr2 := htr
    cases r1 <;> exact ⟨tr2, by simp [htr]⟩

/-- C10 witness: the theorem applied to the concrete successful
environment. -/
theorem c10_witness :
    dirPath cfg0 req0.hash ∈ (saveById envOk cfg0 req0 fs0).2.1.dirs ∧
    (∃ tr, (saveById envOk cfg0 req0 fs0).2.2 =
      .resolveCall req0.id req0.authCookie :: .mkdir (dirPath cfg0 req0.hash) :: tr) ∧
    (∀ (urls2 : List String) (i : Nat) (f : String) (fs2 : FS),
      dirPath cfg0 req0.hash ∈ (tierStep envOk cfg0 req0.hash urls2 i f fs2).2.1.dirs) :=
  c10_cache_dir_created envOk cfg0 req0 fs0
    ["http://h/a.flac", "http://h/b.mp3"] rfl

/-- C4: when the upstream response is a success-status document carrying
both the "high" and "mid" stream fields and the run succeeds (both fetches
and both writes), exactly two cache files exist afterwards, at
`<cacheRoot>/<hash>/zvuk/best[.ext]` and `<cacheRoot>/<hash>/zvuk/mid[.ext]`,
each holding exactly the bytes the fetch step received for that tier's URL;
every other path is untouched and the trace shows exactly these two write
events. -/
theorem c4_successful_run_writes_two_files (env : Env) (cfg : Config)
    (req : Req) (fs : FS) (status : Nat) (j : JVal) (u1 u2 : String)
    (ct1 ct2 : Option String) (b1 b2 : Bytes)
    (hup : env.upstream req.id req.authCookie = .resp status (.ok j))
    (hst : isSuccess status = true)
    (hh : ((streamOf j).idx "high").asStr = some u1)
    (hm : ((streamOf j).idx "mid").asStr = some u2)
    (hn1 : env.net u1 = .ok ct1 b1)
    (hn2 : env.net u2 = .ok ct2 b2)
    (hw1 : env.writeOk (withExt (dirPath cfg req.hash ++ "/" ++ "best")
      (inferredExt env ct1)) = true)
    (hw2 : env.writeOk (withExt (dirPath cfg req.hash ++ "/" ++ "mid")
      (inferredExt env ct2)) = true) :
    (saveById env cfg req fs).1 = .ok true ∧
    (saveById env cfg req fs).2.1.files
      (withExt (dirPath cfg req.hash ++ "/" ++ "best") (inferredExt env ct1)) =
        some b1 ∧
    (saveById env cfg req fs).2.1.files
      (withExt (dirPath cfg req.hash ++ "/" ++ "mid") (inferredExt env ct2)) =
        some b2 ∧
    (∀ p, p ≠ withExt (dirPath cfg req.hash ++ "/" ++ "best") (inferredExt env ct1) →
      p ≠ withExt (dirPath cfg req.hash ++ "/" ++ "mid") (inferredExt env ct2) →
      (saveById env cfg req fs).2.1.files p = fs.files p) ∧
    ((saveById env cfg req fs).2.2).filter isWriteEv =
      [.writeFile (withExt (dirPath cfg req.hash ++ "/" ++ "best")
        (inferredExt env ct1)) b1,
       .writeFile (withExt (dirPath cfg req.hash ++ "/" ++ "mid")
        (inferredExt env ct2)) b2] := by
  have hgu : getUrl (env.upstream req.id req.authCookie) = .ok [u1, u2] := by
    rw [hup]; simp [getUrl, hst, hh, hm]
  have hrun := saveById_run_eq env cfg req fs u1 u2 ct1 ct2 b1 b2 hgu hn1 hn2 hw1 hw2
  rw [hrun]
  dsimp only
  refine ⟨rfl, ?_, ?_, ?_, ?_⟩
  · rw [upd_other _ _ _ _ (withExt_best_ne_mid (dirPath cfg req.hash) _ _)]
    exact upd_same _ _ _
  · exact upd_same _ _ _
  · intro p hp1 hp2
    rw [upd_other _ _ _ _ hp2, upd_other _ _ _ _ hp1]
  · simp [isWriteEv]

/-- C4 witness: the theorem applied to the concrete successful
environment. -/
theorem c4_witness :
    (saveById envOk cfg0 req0 fs0).1 = .ok true ∧
    (saveById envOk cfg0 req0 fs0).2.1.files "CACHE/abc/zvuk/best.flac" =
      some [1, 2, 3] ∧
    (saveById envOk cfg0 req0 fs0).2.1.files "CACHE/abc/zvuk/mid.mp3" =
      some [4, 5] ∧
    (∀ p, p ≠ "CACHE/abc/zvuk/best.flac" → p ≠ "CACHE/abc/zvuk/mid.mp3" →
      (saveById envOk cfg0 req0 fs0).2.1.files p = fs0.files p) ∧
    ((saveById envOk cfg0 req0 fs0).2.2).filter isWriteEv =
      [.writeFile "CACHE/abc/zvuk/best.flac" [1, 2, 3],
       .writeFile "CACHE/abc/zvuk/mid.mp3" [4, 5]] :=
  c4_successful_run_writes_two_files envOk cfg0 req0 fs0 200 respFull
    "http://h/a.flac" "http://h/b.mp3" (some "audio/flac") (some "audio/mpeg")
    [1, 2, 3] [4, 5] rfl rfl rfl rfl rfl rfl rfl rfl

/-- C5: the cache path is deterministic -
`<cacheRoot>/<hash>/zvuk/<tierName>[.<extension>]` with the tier names
fixed to ["best", "mid"] - the written file lands at exactly that path,
and the extension comes from mapping the declared content type through the
media-type table: when the table yields no extension the path carries no
suffix, and when it yields a (non-empty) extension the path ends in a dot
and that extension. -/
theorem c5_deterministic_path_and_extension (env : Env) (cfg : Config)
    (hash format : String) (urls : List String) (i : Nat) (fs : FS)
    (url : String) (ct : Option String) (body : Bytes)
    (hget : urls.get? i = some url)
    (hn : env.net url = .ok ct body)
    (hw : env.writeOk (withExt (dirPath cfg hash ++ "/" ++ format)
      (inferredExt env ct)) = true) :
    dirPath cfg hash ++ "/" ++ format =
      cfg.cacheRoot ++ "/" ++ hash ++ "/zvuk" ++ "/" ++ format ∧
    (tierStep env cfg hash urls i format fs).2.1.files
      (withExt (dirPath cfg hash ++ "/" ++ format) (inferredExt env ct)) =
        some body ∧
    (tierStep env cfg hash urls i format fs).2.2 =
      [.mkdir (dirPath cfg hash), .fetchCall url,
       .writeFile (withExt (dirPath cfg hash ++ "/" ++ format)
         (inferredExt env ct)) body] ∧
    ((ct.bind env.mimeExts).bind List.head? = none →
      withExt (dirPath cfg hash ++ "/" ++ format) (inferredExt env ct) =
        dirPath cfg hash ++ "/" ++ format) ∧
    (∀ e, (ct.bind env.mimeExts).bind List.head? = some e → e ≠ "" →
      withExt (dirPath cfg hash ++ "/" ++ format) (inferredExt env ct) =
        dirPath cfg hash ++ "/" ++ format ++ "." ++ e) ∧
    tierFormats = ["best", "mid"] := by
  rw [List.get?_eq_getElem?] at hget
  refine ⟨rfl, ?_, ?_, ?_, ?_, rfl⟩
  · simp [tierStep, hget, dlFile, hn, hw, upd]
  · simp [tierStep, hget, dlFile, hn, hw]
  · intro hnone
    rw [show inferredExt env ct = "" by simp [inferredExt, hnone]]
    exact withExt_empty _
  · intro e he hne
    rw [show inferredExt env ct = e by simp [inferredExt, he]]
    exact withExt_ne_empty _ e hne

/-- C5 witness: the theorem applied to the concrete successful
environment, best tier. -/
theorem c5_witness :
    dirPath cfg0 "abc" ++ "/" ++ "best" =
      cfg0.cacheRoot ++ "/" ++ "abc" ++ "/zvuk" ++ "/" ++ "best" ∧
    (tierStep envOk cfg0 "abc" ["http://h/a.flac", "http://h/b.mp3"] 0 "best"
      fs0).2.1.files
      (withExt (dirPath cfg0 "abc" ++ "/" ++ "best")
        (inferredExt envOk (some "audio/flac"))) = some [1, 2, 3] ∧
    (tierStep envOk cfg0 "abc" ["http://h/a.flac", "http://h/b.mp3"] 0 "best"
      fs0).2.2 =
      [.mkdir (dirPath cfg0 "abc"), .fetchCall "http://h/a.flac",
       .writeFile (withExt (dirPath cfg0 "abc" ++ "/" ++ "best")
         (inferredExt envOk (some "audio/flac"))) [1, 2, 3]] ∧
    (((some "audio/flac").bind envOk.mimeExts).bind List.head? = none →
      withExt (dirPath cfg0 "abc" ++ "/" ++ "best")
        (inferredExt envOk (some "audio/flac")) =
        dirPath cfg0 "abc" ++ "/" ++ "best") ∧
    (∀ e, ((some "audio/flac").bind envOk.mimeExts).bind List.head? = some e →
      e ≠ "" →
      withExt (dirPath cfg0 "abc" ++ "/" ++ "best")
        (inferredExt envOk (some "audio/flac")) =
        dirPath cfg0 "abc" ++ "/" ++ "best" ++ "." ++ e) ∧
    tierFormats = ["best", "mid"] :=
  c5_deterministic_path_and_extension envOk cfg0 "abc" "best"
    ["http://h/a.flac", "http://h/b.mp3"] 0 fs0 "http://h/a.flac"
    (some "audio/flac") [1, 2, 3] rfl rfl rfl

/-- C8: re-running the same request from the filesystem a previous
successful run produced changes nothing - the same tuple of result, final
filesystem and trace comes out, the same two paths are overwritten with the
same content, and a pre-existing file at the target path is overwritten
whatever it previously held. -/
theorem c8_rerun_overwrites_idempotently (env : Env) (cfg : Config)
    (req : Req) (fs : FS) (status : Nat) (j : JVal) (u1 u2 : String)
    (ct1 ct2 : Option String) (b1 b2 : Bytes)
    (hup : env.upstream req.id req.authCookie = .resp status (.ok j))
    (hst : isSuccess status = true)
    (hh : ((streamOf j).idx "high").asStr = some u1)
    (hm : ((streamOf j).idx "mid").asStr = some u2)
    (hn1 : env.net u1 = .ok ct1 b1)
    (hn2 : env.net u2 = .ok ct2 b2)
    (hw1 : env.writeOk (withExt (dirPath cfg req.hash ++ "/" ++ "best")
      (inferredExt env ct1)) = true)
    (hw2 : env.writeOk (withExt (dirPath cfg req.hash ++ "/" ++ "mid")
      (inferredExt env ct2)) = true) :
    (saveById env cfg req fs).1 = .ok true ∧
    saveById env cfg req ((saveById env cfg req fs).2.1) =
      saveById env cfg req fs ∧
    (∀ prev : Bytes,
      (saveById env cfg req
        ⟨upd fs.files (withExt (dirPath cfg req.hash ++ "/" ++ "best")
          (inferredExt env ct1)) prev, fs.dirs⟩).2.1.files
        (withExt (dirPath cfg req.hash ++ "/" ++ "best") (inferredExt env ct1)) =
        some b1) := by
  have hgu : getUrl (env.upstream req.id req.authCookie) = .ok [u1, u2] := by
    rw [hup]; simp [getUrl, hst, hh, hm]
  have h1 := saveById_run_eq env cfg req fs u1 u2 ct1 ct2 b1 b2 hgu hn1 hn2 hw1 hw2
  refine ⟨by rw [h1], ?_, ?_⟩
  · have hproj : (saveById env cfg req fs).2.1 =
        ⟨upd (upd fs.files (withExt (dirPath cfg req.hash ++ "/" ++ "best")
            (inferredExt env ct1)) b1)
          (withExt (dirPath cfg req.hash ++ "/" ++ "mid") (inferredExt env ct2)) b2,
         insertIfAbsent (dirPath cfg req.hash)
           (insertIfAbsent (dirPath cfg req.hash) fs.dirs)⟩ := by rw [h1]
    have h2 := saveById_run_eq env cfg req
      ⟨upd (upd fs.files (withExt (dirPath cfg req.hash ++ "/" ++ "best")
          (inferredExt env ct1)) b1)
        (withExt (dirPath cfg req.hash ++ "/" ++ "mid") (inferredExt env ct2)) b2,
       insertIfAbsent (dirPath cfg req.hash)
         (insertIfAbsent (dirPath cfg req.hash) fs.dirs)⟩
      u1 u2 ct1 ct2 b1 b2 hgu hn1 hn2 hw1 hw2
    rw [hproj, h2, h1]
    dsimp only
    rw [upd_collapse, insertIfAbsent_idem, insertIfAbsent_idem]
  · intro prev
    have h3 := saveById_run_eq env cfg req
      ⟨upd fs.files (withExt (dirPath cfg req.hash ++ "/" ++ "best")
        (inferredExt env ct1)) prev, fs.dirs⟩
      u1 u2 ct1 ct2 b1 b2 hgu hn1 hn2 hw1 hw2
    rw [h3]
    dsimp only
    rw [upd_other _ _ _ _ (withExt_best_ne_mid (dirPath cfg req.hash) _ _)]
    exact upd_same _ _ _

/-- C8 witness: the theorem applied to the concrete successful
environment. -/
theorem c8_witness :
    (saveById envOk cfg0 req0 fs0).1 = .ok true ∧
    saveById envOk cfg0 req0 ((saveById envOk cfg0 req0 fs0).2.1) =
      saveById envOk cfg0 req0 fs0 ∧
    (∀ prev : Bytes,
      (saveById envOk cfg0 req0
        ⟨upd fs0.files "CACHE/abc/zvuk/best.flac" prev, fs0.dirs⟩).2.1.files
        "CACHE/abc/zvuk/best.flac" = some [1, 2, 3]) :=
  c8_rerun_overwrites_idempotently envOk cfg0 req0 fs0 200 respFull
    "http://h/a.flac" "http://h/b.mp3" (some "audio/flac") (some "audio/mpeg")
    [1, 2, 3] [4, 5] rfl rfl rfl rfl rfl rfl rfl rfl

/-- C7: the supervisor's deadline is five minutes (300 seconds,
main.rs 144), expiry of the deadline is answered with HTTP 500, ok:false
and the elapsed message, and the timeout path never yields an ok:true
response. -/
theorem c7_timeout_outcome :
    timeoutSecs = 5 * 60 ∧
    (∀ env cfg payload fs,
      download env cfg payload fs true = .response 500 ⟨false, elapsedMsg⟩) ∧
    (∀ s e, respond .elapsed ≠ .response s ⟨true, e⟩) := by
  refine ⟨rfl, fun _ _ _ _ => rfl, fun s e h => ?_⟩
  simp [respond] at h

end ZvukDl
